import Mathlib

/-!
Verification of the API-key credential subsystem of `app/auth/api_keys.py`
(`APIKeyManager` and its FastAPI dependencies), shallowly embedded.

Modelling conventions:
  * the SQLite table `api_keys` is a `List Credential`, the `api_key_logs`
    table a `List LogEntry`, both carried in a `Store`;
  * SHA-256 (`_hash_key`) is an abstract function parameter `hashKey`;
  * `datetime.now()` is an explicit integer parameter `now` (seconds);
    `timedelta(days = d)` is `d * 86400`;
  * the random token from `secrets.token_urlsafe(32)` is an explicit
    parameter `randomPart` of `createKey`;
  * `HTTPException(status_code, detail)` becomes the error side of an
    `Except`; the SQLite IntegrityError fired by the UNIQUE constraint on
    `key_hash` becomes `ConflictError`.
-/

set_option autoImplicit false

namespace ApiKeys

/-- One row of the `api_keys` table, as declared in `_init_db`.  `keyPfx` is the
`key_prefix` column.  Nullable columns are `Option`. -/
structure Credential where
  id : Nat
  keyHash : String
  keyPfx : String
  name : String
  description : String
  createdAt : Int
  expiresAt : Option Int
  isActive : Bool
  rateLimit : Int
  allowedEndpoints : String
  lastUsedAt : Option Int
  usageCount : Nat
  isAdmin : Bool
deriving Repr, DecidableEq

/-- One row of the `api_key_logs` table. -/
structure LogEntry where
  keyPfx : String
  endpoint : String
  method : String
  statusCode : Nat
  ipAddress : String
  timestamp : Int
deriving Repr, DecidableEq

/-- The persistent state behind `APIKeyManager`: both tables plus the
AUTOINCREMENT counter for `id`. -/
structure Store where
  keys : List Credential
  logs : List LogEntry
  nextId : Nat
deriving Repr, DecidableEq

/-- An `HTTPException` as raised by `validate_key`: 401 is the spec's
`Unauthenticated`, 403 its `Forbidden`. -/
structure HTTPError where
  statusCode : Nat
  detail : String
deriving Repr, DecidableEq

/-- The IntegrityError raised by the UNIQUE constraint on `key_hash`; the spec
calls it `ConflictError`. -/
inductive ConflictError where
  | conflict
deriving Repr, DecidableEq

/-- Python truthiness of the `api_key` argument in `if not api_key:`; the header
may be absent (None) or present but empty. -/
def isBlankKey : Option String → Bool
  | none => true
  | some s => s == ""

/-- The SELECT of `validate_key`: `WHERE key_hash = ? AND is_active = 1`,
returning the first matching row. -/
def findActive (s : Store) (keyHash : String) : Option Credential :=
  s.keys.find? (fun c => c.keyHash == keyHash && c.isActive)

/-- The expiration test of `validate_key`: an `expires_at` value is present and
strictly in the past (`datetime.now() > expires_at`). -/
def isExpired (row : Credential) (now : Int) : Bool :=
  match row.expiresAt with
  | some e => decide (now > e)
  | none => false

/-- Python's `str.split(",")` on the character list: splitting on every comma,
an empty string yielding `[""]`. -/
def splitCommasAux : List Char → List Char → List String
  | [], acc => [String.mk acc.reverse]
  | c :: cs, acc =>
    if c = ',' then String.mk acc.reverse :: splitCommasAux cs []
    else splitCommasAux cs (c :: acc)

/-- Python's `allowed.split(",")`. -/
def splitCommas (s : String) : List String :=
  splitCommasAux s.data []

/-- The endpoint-scope test of `validate_key`:
`allowed != "*" and endpoint not in allowed.split(",")`. -/
def endpointDenied (row : Credential) (endpoint : String) : Bool :=
  row.allowedEndpoints != "*" && !((splitCommas row.allowedEndpoints).contains endpoint)

/-- The SET clause of the usage UPDATE in `validate_key`:
`last_used_at = CURRENT_TIMESTAMP, usage_count = usage_count + 1`. -/
def bumpUsage (now : Int) (c : Credential) : Credential :=
  { c with lastUsedAt := some now, usageCount := c.usageCount + 1 }

/-- The usage UPDATE of `validate_key`, applied to every row satisfying
`WHERE key_hash = ?`. -/
def updateUsage (s : Store) (keyHash : String) (now : Int) : Store :=
  { s with keys := s.keys.map (fun c =>
      if c.keyHash == keyHash then bumpUsage now c else c) }

/-- `APIKeyManager.validate_key`.  The returned row is `dict(row)` exactly as
fetched by `SELECT *` — before the usage UPDATE and still carrying `key_hash`.
The store is returned alongside: updated on success, untouched on rejection. -/
def validateKey (hashKey : String → String) (s : Store) (apiKey : Option String)
    (endpoint : String) (requireAdmin : Bool) (now : Int) :
    Except HTTPError Credential × Store :=
  if isBlankKey apiKey then
    (.error ⟨401, "API Key missing"⟩, s)
  else
    let keyHash := hashKey (apiKey.getD "")
    match findActive s keyHash with
    | none => (.error ⟨401, "Invalid API Key"⟩, s)
    | some row =>
      if requireAdmin && !row.isAdmin then
        (.error ⟨403, "Admin privileges required"⟩, s)
      else if isExpired row now then
        (.error ⟨401, "API Key expired"⟩, s)
      else if endpointDenied row endpoint then
        (.error ⟨403, "API Key not authorized for endpoint: " ++ endpoint⟩, s)
      else
        (.ok row, updateUsage s keyHash now)

/-- The INSERT of `create_key` against the UNIQUE `key_hash` column: a duplicate
hash raises and leaves the table unchanged, otherwise the row is appended. -/
def insertKey (s : Store) (c : Credential) : Except ConflictError Store :=
  if s.keys.any (fun k => k.keyHash == c.keyHash) then .error .conflict
  else .ok { s with keys := s.keys ++ [c], nextId := s.nextId + 1 }

/-- `generate_key`: a fixed `ai_` tag in front of the random token (the token
itself is a parameter of the model). -/
def generateKey (randomPart : String) : String := "ai_" ++ randomPart

/-- The `expires_at` computation of `create_key`.  `if expires_in_days:` is
Python truthiness, so both None and 0 mean no expiration. -/
def expiresFromDays (now : Int) : Option Int → Option Int
  | none => none
  | some d => if d == 0 then none else some (now + d * 86400)

/-- Python's `",".join(l)`. -/
def joinCommas : List String → String
  | [] => ""
  | [a] => a
  | a :: rest => a ++ "," ++ joinCommas rest

/-- The `endpoints_str` computation of `create_key`:
`",".join(allowed_endpoints) if allowed_endpoints else "*"`. -/
def encodeEndpoints : Option (List String) → String
  | none => "*"
  | some l => if l.isEmpty then "*" else joinCommas l

/-- The row assembled by `create_key` before the INSERT: hash and prefix are
derived from the generated plaintext, `is_active` defaults to 1, the counters
to NULL and 0. -/
def newCredential (hashKey : String → String) (s : Store) (randomPart : String)
    (name : String) (description : String) (expiresInDays : Option Int)
    (rateLimit : Int) (allowedEndpoints : Option (List String)) (isAdmin : Bool)
    (now : Int) : Credential :=
  { id := s.nextId
    keyHash := hashKey (generateKey randomPart)
    keyPfx := (generateKey randomPart).take 12
    name := name
    description := description
    createdAt := now
    expiresAt := expiresFromDays now expiresInDays
    isActive := true
    rateLimit := rateLimit
    allowedEndpoints := encodeEndpoints allowedEndpoints
    lastUsedAt := none
    usageCount := 0
    isAdmin := isAdmin }

/-- `APIKeyManager.create_key`: build the row from the generated secret and
insert it, returning the plaintext.  On a hash conflict the IntegrityError
propagates to the caller and the store is unchanged. -/
def createKey (hashKey : String → String) (s : Store) (randomPart : String)
    (name : String) (description : String) (expiresInDays : Option Int)
    (rateLimit : Int) (allowedEndpoints : Option (List String)) (isAdmin : Bool)
    (now : Int) : Except ConflictError String × Store :=
  match insertKey s (newCredential hashKey s randomPart name description
      expiresInDays rateLimit allowedEndpoints isAdmin now) with
  | .error e => (.error e, s)
  | .ok s' => (.ok (generateKey randomPart), s')

/-- `APIKeyManager.log_request`: append one row to `api_key_logs`. -/
def logRequest (s : Store) (keyPfx endpoint method : String) (statusCode : Nat)
    (ipAddress : String) (now : Int) : Store :=
  { s with logs := s.logs ++ [⟨keyPfx, endpoint, method, statusCode, ipAddress, now⟩] }

/-- `APIKeyManager.revoke_key`: `UPDATE api_keys SET is_active = 0 WHERE
key_prefix = ?`, returning `cursor.rowcount > 0`; SQLite counts every row
matched by the WHERE clause. -/
def revokeKey (s : Store) (keyPfx : String) : Bool × Store :=
  (decide (0 < s.keys.countP (fun c => c.keyPfx == keyPfx)),
   { s with keys := s.keys.map (fun c =>
       if c.keyPfx == keyPfx then { c with isActive := false } else c) })

/-- `APIKeyManager.activate_key`: the same UPDATE with `is_active = 1`. -/
def activateKey (s : Store) (keyPfx : String) : Bool × Store :=
  (decide (0 < s.keys.countP (fun c => c.keyPfx == keyPfx)),
   { s with keys := s.keys.map (fun c =>
       if c.keyPfx == keyPfx then { c with isActive := true } else c) })

/-- The column list of `list_keys`: every `api_keys` column except `key_hash`. -/
structure KeyView where
  id : Nat
  keyPfx : String
  name : String
  description : String
  createdAt : Int
  expiresAt : Option Int
  isActive : Bool
  rateLimit : Int
  allowedEndpoints : String
  lastUsedAt : Option Int
  usageCount : Nat
  isAdmin : Bool
deriving Repr, DecidableEq

/-- The projection applied by the SELECT of `list_keys`. -/
def toKeyView (c : Credential) : KeyView :=
  { id := c.id
    keyPfx := c.keyPfx
    name := c.name
    description := c.description
    createdAt := c.createdAt
    expiresAt := c.expiresAt
    isActive := c.isActive
    rateLimit := c.rateLimit
    allowedEndpoints := c.allowedEndpoints
    lastUsedAt := c.lastUsedAt
    usageCount := c.usageCount
    isAdmin := c.isAdmin }

/-- Insertion step of a sort keeping `createdAt` descending. -/
def insertByCreatedDesc (v : KeyView) : List KeyView → List KeyView
  | [] => [v]
  | w :: ws =>
    if w.createdAt ≤ v.createdAt then v :: w :: ws else w :: insertByCreatedDesc v ws

/-- `ORDER BY created_at DESC`, modelled as an insertion sort. -/
def sortByCreatedDesc (l : List KeyView) : List KeyView :=
  l.foldr insertByCreatedDesc []

/-- `APIKeyManager.list_keys`: optional `WHERE is_active = 1`, projection
without `key_hash`, ordered by `created_at` descending. -/
def listKeys (s : Store) (activeOnly : Bool) : List KeyView :=
  sortByCreatedDesc
    ((if activeOnly then s.keys.filter (fun c => c.isActive) else s.keys).map toKeyView)

/-- The per-key branch of `get_key_stats`: aggregates over `api_key_logs` plus
`usage_count, created_at, is_active, is_admin` of the first key row matching the
given `key_prefix`. -/
structure KeyStats where
  totalRequests : Nat
  uniqueEndpoints : Nat
  firstRequest : Option Int
  lastRequest : Option Int
  keyInfo : Option (Nat × Int × Bool × Bool)
deriving Repr, DecidableEq

/-- The global branch of `get_key_stats`. -/
structure GlobalStats where
  totalKeys : Nat
  activeKeys : Nat
  adminKeys : Nat
  totalRequests : Nat
  keysUsed : Nat
deriving Repr, DecidableEq

/-- Result of `get_key_stats`, per-key or global depending on the argument. -/
inductive Stats where
  | ofKey (info : KeyStats)
  | ofAll (info : GlobalStats)
deriving Repr, DecidableEq

/-- `MIN(timestamp)` over a list of log rows; NULL on an empty selection. -/
def minTimestamp (l : List LogEntry) : Option Int :=
  l.foldl (fun acc e =>
    match acc with
    | none => some e.timestamp
    | some m => some (min m e.timestamp)) none

/-- `MAX(timestamp)` over a list of log rows; NULL on an empty selection. -/
def maxTimestamp (l : List LogEntry) : Option Int :=
  l.foldl (fun acc e =>
    match acc with
    | none => some e.timestamp
    | some m => some (max m e.timestamp)) none

/-- `APIKeyManager.get_key_stats`. -/
def getKeyStats (s : Store) (q : Option String) : Stats :=
  match q with
  | some p =>
    let entries := s.logs.filter (fun e => e.keyPfx == p)
    .ofKey
      { totalRequests := entries.length
        uniqueEndpoints := ((entries.map (fun e => e.endpoint)).eraseDups).length
        firstRequest := minTimestamp entries
        lastRequest := maxTimestamp entries
        keyInfo := (s.keys.find? (fun c => c.keyPfx == p)).map
          (fun c => (c.usageCount, c.createdAt, c.isActive, c.isAdmin)) }
  | none =>
    .ofAll
      { totalKeys := s.keys.length
        activeKeys := (s.keys.filter (fun c => c.isActive)).length
        adminKeys := (s.keys.filter (fun c => c.isAdmin)).length
        totalRequests := (s.keys.map (fun c => c.usageCount)).sum
        keysUsed := ((s.keys.map (fun c => c.keyPfx)).eraseDups).length }

/-- The FastAPI dependency `verify_api_key` (`require_admin = False`): validate,
then try to append a log row with the hard-coded status code 200; an exception
from the append (`logFails`) is caught and swallowed. -/
def verifyApiKey (hashKey : String → String) (s : Store) (apiKey : Option String)
    (path method ip : String) (now : Int) (logFails : Bool) :
    Except HTTPError Credential × Store :=
  match validateKey hashKey s apiKey path false now with
  | (.error e, s') => (.error e, s')
  | (.ok row, s') =>
    if logFails then (.ok row, s')
    else (.ok row, logRequest s' row.keyPfx path method 200 ip now)

/-- One protected request end to end: the dependency runs first (appending the
audit row during verification), then the route handler resolves its own status
code. -/
def handleRequest (hashKey : String → String) (s : Store) (apiKey : Option String)
    (path method ip : String) (now : Int) (logFails : Bool)
    (handlerStatus : Nat) : Except HTTPError Nat × Store :=
  match verifyApiKey hashKey s apiKey path method ip now logFails with
  | (.error e, s') => (.error e, s')
  | (.ok _, s') => (.ok handlerStatus, s')

/-- N repeated calls of `validate_key` with the same secret, endpoint and admin
flag, at the successive clock readings `ts`. -/
def validateIter (hashKey : String → String) (k ep : String) (ra : Bool)
    (ts : List Int) (s : Store) : Store :=
  ts.foldl (fun st t => (validateKey hashKey st (some k) ep ra t).2) s

/-- The invariant enforced by the UNIQUE constraint on `key_hash`: stored hashes
are pairwise distinct. -/
def WF (s : Store) : Prop :=
  s.keys.Pairwise (fun a b => a.keyHash ≠ b.keyHash)

/-- Rewriting of every stored hash by a function, used to state that read
projections are independent of the hash column. -/
def scrubHashes (s : Store) (f : String → String) : Store :=
  { s with keys := s.keys.map (fun c => { c with keyHash := f c.keyHash }) }

/-! ### Concrete stores used in witnesses and counterexamples -/

/-- An inactive credential (C1). -/
def w1c : Credential :=
  { id := 1, keyHash := "h1", keyPfx := "ai_aaaaaaaaa", name := "n",
    description := "", createdAt := 0, expiresAt := none, isActive := false,
    rateLimit := 60, allowedEndpoints := "*", lastUsedAt := none,
    usageCount := 0, isAdmin := false }

/-- Store holding only `w1c` (C1). -/
def w1s : Store := { keys := [w1c], logs := [], nextId := 2 }

/-- An expired, active, non-admin credential (C2). -/
def w2c : Credential :=
  { id := 1, keyHash := "h2", keyPfx := "ai_bbbbbbbbb", name := "n",
    description := "", createdAt := 0, expiresAt := some 5, isActive := true,
    rateLimit := 60, allowedEndpoints := "*", lastUsedAt := none,
    usageCount := 0, isAdmin := false }

/-- Store holding only `w2c` (C2). -/
def w2s : Store := { keys := [w2c], logs := [], nextId := 2 }

/-- An active unrestricted credential whose secret is its own hash under the
identity hash function (C3). -/
def w3c : Credential :=
  { id := 1, keyHash := "sek", keyPfx := "ai_fffffffff", name := "n",
    description := "", createdAt := 0, expiresAt := none, isActive := true,
    rateLimit := 60, allowedEndpoints := "*", lastUsedAt := none,
    usageCount := 0, isAdmin := false }

/-- Store holding only `w3c` (C3). -/
def w3s : Store := { keys := [w3c], logs := [], nextId := 2 }

/-- An always-valid credential with a prior usage count (C4). -/
def w4c : Credential :=
  { id := 1, keyHash := "h4", keyPfx := "ai_ccccccccc", name := "n",
    description := "", createdAt := 0, expiresAt := none, isActive := true,
    rateLimit := 60, allowedEndpoints := "*", lastUsedAt := none,
    usageCount := 5, isAdmin := false }

/-- Store holding only `w4c` (C4). -/
def w4s : Store := { keys := [w4c], logs := [], nextId := 2 }

/-- Empty store (C5). -/
def w5s0 : Store := { keys := [], logs := [], nextId := 1 }

/-- Store produced by the C5 witness creation. -/
def w5s1 : Store :=
  (createKey (fun x => x) w5s0 "r" "svc" "d" (some 30) 10 (some ["/generate"])
    false 0).2

/-- An active, non-admin credential expiring at time 5 (C6). -/
def w6c : Credential :=
  { id := 1, keyHash := "h6", keyPfx := "ai_ddddddddd", name := "n",
    description := "", createdAt := 0, expiresAt := some 5, isActive := true,
    rateLimit := 60, allowedEndpoints := "*", lastUsedAt := none,
    usageCount := 0, isAdmin := false }

/-- Store holding only `w6c` (C6). -/
def w6s : Store := { keys := [w6c], logs := [], nextId := 2 }

/-- Empty store (C7). -/
def w7s0 : Store := { keys := [], logs := [], nextId := 1 }

/-- Store after one creation under a collision-forcing hash function (C7). -/
def w7s1 : Store :=
  (createKey (fun _ => "H") w7s0 "r1" "n1" "" none 60 none false 0).2

/-- A credential scoped to the single endpoint `/embeddings` (C8). -/
def w8c : Credential :=
  { id := 1, keyHash := "h8", keyPfx := "ai_eeeeeeeee", name := "n",
    description := "", createdAt := 0, expiresAt := none, isActive := true,
    rateLimit := 60, allowedEndpoints := "/embeddings", lastUsedAt := none,
    usageCount := 0, isAdmin := false }

/-- Store holding only `w8c` (C8). -/
def w8s : Store := { keys := [w8c], logs := [], nextId := 2 }

/-- An active unrestricted credential (C9). -/
def w9c : Credential :=
  { id := 1, keyHash := "h9", keyPfx := "ai_ggggggggg", name := "n",
    description := "", createdAt := 0, expiresAt := none, isActive := true,
    rateLimit := 60, allowedEndpoints := "*", lastUsedAt := none,
    usageCount := 0, isAdmin := false }

/-- Store holding only `w9c` (C9). -/
def w9s : Store := { keys := [w9c], logs := [], nextId := 2 }

/-- First of two credentials sharing the prefix `pp` (C10). -/
def w10a : Credential :=
  { id := 1, keyHash := "hA", keyPfx := "pp", name := "a", description := "",
    createdAt := 0, expiresAt := none, isActive := true, rateLimit := 60,
    allowedEndpoints := "*", lastUsedAt := none, usageCount := 0,
    isAdmin := false }

/-- Second credential with the same prefix, different hash (C10). -/
def w10b : Credential :=
  { id := 2, keyHash := "hB", keyPfx := "pp", name := "b", description := "",
    createdAt := 1, expiresAt := none, isActive := true, rateLimit := 60,
    allowedEndpoints := "*", lastUsedAt := none, usageCount := 0,
    isAdmin := false }

/-- Store holding `w10a` and `w10b` (C10). -/
def w10s : Store := { keys := [w10a, w10b], logs := [], nextId := 3 }

/-! ### Helper lemmas -/

/-- In a hash-distinct list, a row is determined by its hash. -/
lemma hash_unique_of_list {l : List Credential}
    (hl : l.Pairwise (fun a b => a.keyHash ≠ b.keyHash)) {c k : Credential}
    (hc : c ∈ l) (hk : k ∈ l) (h : k.keyHash = c.keyHash) : k = c := by
  induction hl with
  | nil => simp at hc
  | cons hhead _ ih =>
    rcases List.mem_cons.mp hc with rfl | hc' <;>
      rcases List.mem_cons.mp hk with rfl | hk'
    · rfl
    · exact absurd h.symm (hhead _ hk')
    · exact absurd h (hhead _ hc')
    · exact ih hc' hk'

/-- In a well-formed store, a stored row is determined by its hash. -/
lemma hash_unique_of_wf {s : Store} (hwf : WF s) {c k : Credential}
    (hc : c ∈ s.keys) (hk : k ∈ s.keys) (h : k.keyHash = c.keyHash) : k = c :=
  hash_unique_of_list hwf hc hk h

/-- If every stored row carrying the presented hash is inactive, `validate_key`
rejects with a 401. -/
lemma validate_no_active_match (hashKey : String → String) (s : Store)
    (secret : String) (endpoint : String) (ra : Bool) (now : Int)
    (hnone : ∀ k ∈ s.keys, k.keyHash = hashKey secret → k.isActive = false) :
    ∃ d, (validateKey hashKey s (some secret) endpoint ra now).1 =
      Except.error ⟨401, d⟩ := by
  by_cases hblank : secret = ""
  · exact ⟨"API Key missing", by simp [validateKey, isBlankKey, hblank]⟩
  · have hfind : findActive s (hashKey secret) = none := by
      unfold findActive
      rw [List.find?_eq_none]
      intro x hx
      simp only [Bool.and_eq_true, beq_iff_eq, not_and]
      intro hxh
      simp [hnone x hx hxh]
    exact ⟨"Invalid API Key", by simp [validateKey, isBlankKey, hblank, hfind]⟩

/-- `revoke_key` and `activate_key` only touch the `is_active` column and keep
every row's hash. -/
lemma setActive_keyHash (p : String) (b : Bool) (c : Credential) :
    ((if c.keyPfx == p then { c with isActive := b } else c) : Credential).keyHash
      = c.keyHash := by
  by_cases h : c.keyPfx == p <;> simp [h]

/-- The usage UPDATE keeps every row's hash. -/
lemma bumpIf_keyHash (h : String) (t : Int) (c : Credential) :
    ((if c.keyHash == h then bumpUsage t c else c) : Credential).keyHash
      = c.keyHash := by
  by_cases hc : c.keyHash == h <;> simp [hc, bumpUsage]

/-- In a hash-distinct list, the active-row lookup on a stored active row's
hash finds exactly that row. -/
lemma find_active_of_pairwise {l : List Credential}
    (hl : l.Pairwise (fun a b => a.keyHash ≠ b.keyHash)) {c : Credential}
    (hc : c ∈ l) (hact : c.isActive = true) :
    l.find? (fun x => x.keyHash == c.keyHash && x.isActive) = some c := by
  induction l with
  | nil => simp at hc
  | cons a t ih =>
    rcases List.mem_cons.mp hc with rfl | hct
    · rw [List.find?_cons_of_pos _ (by simp [hact])]
    · have hne : a.keyHash ≠ c.keyHash := (List.pairwise_cons.mp hl).1 c hct
      rw [List.find?_cons_of_neg _ (by simp [hne])]
      exact ih (List.pairwise_cons.mp hl).2 hct

/-- In a well-formed store, the active-row lookup on a stored active row's hash
finds exactly that row. -/
lemma findActive_eq_some {s : Store} (hwf : WF s) {c : Credential}
    (hc : c ∈ s.keys) (hact : c.isActive = true) :
    findActive s c.keyHash = some c :=
  find_active_of_pairwise hwf hc hact

/-- The success path of `validate_key`: every check passes, the pre-update row
is returned and the usage UPDATE is committed. -/
lemma validate_success_eq (hashKey : String → String) (s : Store) (k ep : String)
    (ra : Bool) (t : Int) (c : Credential) (hwf : WF s) (hc : c ∈ s.keys)
    (hk : k ≠ "") (hh : hashKey k = c.keyHash) (hact : c.isActive = true)
    (hadm : ra = true → c.isAdmin = true) (hexp : isExpired c t = false)
    (hep : endpointDenied c ep = false) :
    validateKey hashKey s (some k) ep ra t = (Except.ok c, updateUsage s c.keyHash t) := by
  have hfind : findActive s (hashKey k) = some c := by
    rw [hh]; exact findActive_eq_some hwf hc hact
  have hcond : ¬(ra = true ∧ c.isAdmin = false) := by
    rintro ⟨h1, h2⟩
    rw [hadm h1] at h2
    simp at h2
  rw [hh] at hfind
  simp [validateKey, isBlankKey, hk, hfind, hcond, hexp, hep, hh]

/-- `validate_key` either rejects and leaves the store untouched, or succeeds
and commits exactly the usage UPDATE for the presented hash. -/
lemma validate_result_cases (hashKey : String → String) (s : Store)
    (apiKey : Option String) (ep : String) (ra : Bool) (now : Int) :
    (∃ e, validateKey hashKey s apiKey ep ra now = (Except.error e, s)) ∨
    (∃ row k, apiKey = some k ∧ findActive s (hashKey k) = some row ∧
      validateKey hashKey s apiKey ep ra now =
        (Except.ok row, updateUsage s (hashKey k) now)) := by
  cases apiKey with
  | none => exact Or.inl ⟨⟨401, "API Key missing"⟩, by simp [validateKey, isBlankKey]⟩
  | some k =>
    by_cases hk : k = ""
    · exact Or.inl ⟨⟨401, "API Key missing"⟩, by simp [validateKey, isBlankKey, hk]⟩
    · have hbk : isBlankKey (some k) = false := by simp [isBlankKey, hk]
      cases hfind : findActive s (hashKey k) with
      | none =>
        exact Or.inl ⟨⟨401, "Invalid API Key"⟩, by simp [validateKey, hbk, hfind]⟩
      | some row =>
        by_cases hadm : (ra && !row.isAdmin) = true
        · exact Or.inl ⟨⟨403, "Admin privileges required"⟩,
            by simp [validateKey, hbk, hfind, hadm]⟩
        · have hadm' : (ra && !row.isAdmin) = false := by simpa using hadm
          by_cases hexp : isExpired row now = true
          · exact Or.inl ⟨⟨401, "API Key expired"⟩,
              by simp [validateKey, hbk, hfind, hadm', hexp]⟩
          · have hexp' : isExpired row now = false := by simpa using hexp
            by_cases hep : endpointDenied row ep = true
            · exact Or.inl ⟨⟨403, "API Key not authorized for endpoint: " ++ ep⟩,
                by simp [validateKey, hbk, hfind, hadm', hexp', hep]⟩
            · have hep' : endpointDenied row ep = false := by simpa using hep
              exact Or.inr ⟨row, k, rfl, hfind,
                by simp [validateKey, hbk, hfind, hadm', hexp', hep']⟩

/-- The usage UPDATE preserves the store's hash uniqueness. -/
lemma wf_updateUsage {s : Store} (hwf : WF s) (h : String) (t : Int) :
    WF (updateUsage s h t) := by
  unfold WF updateUsage at *
  rw [List.pairwise_map]
  refine hwf.imp ?_
  intro a b hab
  rw [bumpIf_keyHash, bumpIf_keyHash]
  exact hab

/-- Folding the SET clause over a list of times adds its length to the usage
counter. -/
lemma foldl_bump_usageCount (ts : List Int) (c : Credential) :
    (ts.foldl (fun y t => bumpUsage t y) c).usageCount
      = c.usageCount + ts.length := by
  induction ts generalizing c with
  | nil => rfl
  | cons t rest ih =>
    rw [List.foldl_cons, ih]
    show c.usageCount + 1 + rest.length = c.usageCount + (rest.length + 1)
    omega

/-- Folding the SET clause over a list of times leaves the timestamp of the
last one (or the old value when the list is empty). -/
lemma foldl_bump_lastUsedAt (ts : List Int) (c : Credential) :
    (ts.foldl (fun y t => bumpUsage t y) c).lastUsedAt
      = ts.getLast?.or c.lastUsedAt := by
  induction ts generalizing c with
  | nil => rfl
  | cons t rest ih =>
    rw [List.foldl_cons, ih]
    cases rest with
    | nil => rfl
    | cons t2 rest2 =>
      rw [List.getLast?_cons_cons]
      have hsome : ((t2 :: rest2).getLast?).isSome := by
        rw [List.getLast?_isSome]; exact List.cons_ne_nil t2 rest2
      rcases Option.isSome_iff_exists.mp hsome with ⟨v, hv⟩
      rw [hv]
      rfl

/-- Fields other than the usage counters survive the SET clause. -/
lemma foldl_bump_frame (ts : List Int) (c : Credential) :
    (ts.foldl (fun y t => bumpUsage t y) c).keyHash = c.keyHash ∧
    (ts.foldl (fun y t => bumpUsage t y) c).isActive = c.isActive ∧
    (ts.foldl (fun y t => bumpUsage t y) c).isAdmin = c.isAdmin ∧
    (ts.foldl (fun y t => bumpUsage t y) c).expiresAt = c.expiresAt ∧
    (ts.foldl (fun y t => bumpUsage t y) c).allowedEndpoints = c.allowedEndpoints := by
  induction ts generalizing c with
  | nil => exact ⟨rfl, rfl, rfl, rfl, rfl⟩
  | cons t rest ih =>
    rw [List.foldl_cons]
    exact ih (bumpUsage t c)

/-- Shape of the store after N successful validations of the same key: exactly
the rows carrying the presented hash accumulate the usage updates. -/
lemma validateIter_keys (hashKey : String → String) (k ep : String) (ra : Bool)
    (ts : List Int) (s : Store) (c : Credential) (hwf : WF s) (hc : c ∈ s.keys)
    (hk : k ≠ "") (hh : hashKey k = c.keyHash) (hact : c.isActive = true)
    (hadm : ra = true → c.isAdmin = true)
    (hexp : ∀ t ∈ ts, isExpired c t = false)
    (hep : endpointDenied c ep = false) :
    (validateIter hashKey k ep ra ts s).keys =
      s.keys.map (fun x =>
        if x.keyHash == c.keyHash then ts.foldl (fun y t => bumpUsage t y) x
        else x) := by
  induction ts generalizing s c with
  | nil =>
    simp [validateIter]
  | cons t rest ih =>
    have hstep := validate_success_eq hashKey s k ep ra t c hwf hc hk hh hact hadm
      (hexp t (List.mem_cons_self t rest)) hep
    unfold validateIter at *
    rw [List.foldl_cons, hstep]
    have hwf' : WF (updateUsage s c.keyHash t) := wf_updateUsage hwf _ _
    have hc' : bumpUsage t c ∈ (updateUsage s c.keyHash t).keys := by
      have hmem := List.mem_map_of_mem
        (fun x => if x.keyHash == c.keyHash then bumpUsage t x else x) hc
      simpa [updateUsage] using hmem
    have hrest := ih (updateUsage s c.keyHash t) (bumpUsage t c) hwf' hc'
      hh hact hadm
      (fun t' ht' => hexp t' (List.mem_cons_of_mem t ht'))
      hep
    rw [hrest]
    simp only [updateUsage, List.map_map]
    refine List.map_congr_left ?_
    intro x _
    simp only [Function.comp_apply]
    by_cases hx : (x.keyHash == c.keyHash) = true
    · rw [if_pos hx]
      have hcondg : ((bumpUsage t x).keyHash == (bumpUsage t c).keyHash) = true := hx
      rw [if_pos hcondg, if_pos hx]
      rfl
    · rw [if_neg hx]
      have hcondg : ¬(((x.keyHash == (bumpUsage t c).keyHash) = true)) := hx
      rw [if_neg hcondg, if_neg hx]

/-! ### C1 -/

/-- Claim C1: an inactive credential never validates (the lookup is restricted
to active rows), and after `revoke_key` succeeds on a key's prefix, validating
that key's secret fails with a 401, for every endpoint, admin flag and time. -/
theorem inactive_and_revoked_never_validate
    (hashKey : String → String) (s : Store) (c : Credential) (secret : String)
    (hwf : WF s) (hc : c ∈ s.keys) (hhash : hashKey secret = c.keyHash)
    (endpoint : String) (ra : Bool) (now : Int) :
    (c.isActive = false →
      ∃ d, (validateKey hashKey s (some secret) endpoint ra now).1 =
        Except.error ⟨401, d⟩) ∧
    ((revokeKey s c.keyPfx).1 = true ∧
      ∃ d, (validateKey hashKey (revokeKey s c.keyPfx).2
              (some secret) endpoint ra now).1 = Except.error ⟨401, d⟩) := by
  refine ⟨fun hinact => ?_, ?_, ?_⟩
  · refine validate_no_active_match hashKey s secret endpoint ra now ?_
    intro k hk hkh
    have : k = c := hash_unique_of_wf hwf hc hk (hhash ▸ hkh)
    simpa [this] using hinact
  · simp only [revokeKey, decide_eq_true_eq, List.countP_pos_iff]
    exact ⟨c, hc, by simp⟩
  · refine validate_no_active_match hashKey _ secret endpoint ra now ?_
    intro k' hk' hk'h
    simp only [revokeKey] at hk'
    rcases List.mem_map.mp hk' with ⟨k, hk, rfl⟩
    rw [setActive_keyHash] at hk'h
    have : k = c := hash_unique_of_wf hwf hc hk (hhash ▸ hk'h)
    subst this
    simp

/-- Witness for C1 at a concrete store. -/
theorem inactive_and_revoked_never_validate_witness :
    (∃ d, (validateKey (fun x => x) w1s (some "h1") "/e" false 0).1 =
      Except.error ⟨401, d⟩) ∧
    (revokeKey w1s "ai_aaaaaaaaa").1 = true :=
  ⟨(inactive_and_revoked_never_validate (fun x => x) w1s w1c "h1"
      (by simp [WF, w1s]) (by simp [w1s]) rfl "/e" false 0).1 rfl,
   (inactive_and_revoked_never_validate (fun x => x) w1s w1c "h1"
      (by simp [WF, w1s]) (by simp [w1s]) rfl "/e" false 0).2.1⟩

/-! ### C2 -/

/-- Claim C2: `validate_key` performs its checks in exactly the order blank
secret, active-row lookup, admin requirement, expiration, endpoint scope, each
failing step short-circuiting with its own error and leaving the store
untouched; consequently an expired non-admin key presented with
`require_admin = true` is rejected 403 Forbidden, never as expired. -/
theorem validate_checks_in_order
    (hashKey : String → String) (s : Store) (apiKey : Option String)
    (endpoint : String) (ra : Bool) (now : Int) :
    (isBlankKey apiKey = true →
      validateKey hashKey s apiKey endpoint ra now =
        (Except.error ⟨401, "API Key missing"⟩, s)) ∧
    (∀ k, apiKey = some k → k ≠ "" →
      (findActive s (hashKey k) = none →
        validateKey hashKey s apiKey endpoint ra now =
          (Except.error ⟨401, "Invalid API Key"⟩, s)) ∧
      (∀ row, findActive s (hashKey k) = some row →
        (ra = true → row.isAdmin = false →
          validateKey hashKey s apiKey endpoint ra now =
            (Except.error ⟨403, "Admin privileges required"⟩, s)) ∧
        ((ra = true → row.isAdmin = true) →
          (isExpired row now = true →
            validateKey hashKey s apiKey endpoint ra now =
              (Except.error ⟨401, "API Key expired"⟩, s)) ∧
          (isExpired row now = false →
            (endpointDenied row endpoint = true →
              validateKey hashKey s apiKey endpoint ra now =
                (Except.error
                  ⟨403, "API Key not authorized for endpoint: " ++ endpoint⟩, s)) ∧
            (endpointDenied row endpoint = false →
              validateKey hashKey s apiKey endpoint ra now =
                (Except.ok row, updateUsage s (hashKey k) now)))))) ∧
    (∀ row k, apiKey = some k → k ≠ "" → findActive s (hashKey k) = some row →
      ra = true → row.isAdmin = false → isExpired row now = true →
      validateKey hashKey s apiKey endpoint ra now =
        (Except.error ⟨403, "Admin privileges required"⟩, s)) := by
  refine ⟨?_, ?_, ?_⟩
  · intro hb
    simp [validateKey, hb]
  · rintro k rfl hk
    have hbk : isBlankKey (some k) = false := by simp [isBlankKey, hk]
    refine ⟨?_, ?_⟩
    · intro hfind
      simp [validateKey, hbk, hfind]
    · intro row hfind
      refine ⟨?_, ?_⟩
      · intro hra hadm
        simp [validateKey, hbk, hfind, hra, hadm]
      · intro hpass
        have hcond : (ra && !row.isAdmin) = false := by
          cases ra
          · rfl
          · simp [hpass rfl]
        refine ⟨?_, ?_⟩
        · intro hexp
          simp [validateKey, hbk, hfind, hcond, hexp]
        · intro hexp
          refine ⟨?_, ?_⟩
          · intro hep
            simp [validateKey, hbk, hfind, hcond, hexp, hep]
          · intro hep
            simp [validateKey, hbk, hfind, hcond, hexp, hep]
  · rintro row k rfl hk hfind hra hadm hexp
    have hbk : isBlankKey (some k) = false := by simp [isBlankKey, hk]
    simp [validateKey, hbk, hfind, hra, hadm]

/-- Witness for C2: at time 100 (past the expiry 5) a non-admin key presented
with `require_admin = true` is rejected 403 Forbidden, not as expired. -/
theorem validate_checks_in_order_witness :
    validateKey (fun x => x) w2s (some "h2") "/e" true 100 =
      (Except.error ⟨403, "Admin privileges required"⟩, w2s) :=
  (validate_checks_in_order (fun x => x) w2s (some "h2") "/e" true 100).2.2
    w2c "h2" rfl (by decide) rfl rfl rfl rfl

/-! ### C4 -/

/-- Claim C4: `usage_count` is non-decreasing across validation; a rejected
validation changes nothing, a successful one adds exactly 1 to the matched
row's counter and sets its `last_used_at` to the validation time, leaving every
other row unchanged; N successful validations of the same key add exactly N,
with `last_used_at` ending at the most recent validation time. -/
theorem usage_count_accounting
    (hashKey : String → String) (s : Store) (apiKey : Option String)
    (ep : String) (ra : Bool) (now : Int) :
    (∀ e, (validateKey hashKey s apiKey ep ra now).1 = Except.error e →
      (validateKey hashKey s apiKey ep ra now).2 = s) ∧
    (∀ row, (validateKey hashKey s apiKey ep ra now).1 = Except.ok row →
      row ∈ s.keys ∧
      bumpUsage now row ∈ (validateKey hashKey s apiKey ep ra now).2.keys ∧
      (bumpUsage now row).usageCount = row.usageCount + 1 ∧
      (bumpUsage now row).lastUsedAt = some now ∧
      (∀ c ∈ s.keys, c.keyHash ≠ row.keyHash →
        c ∈ (validateKey hashKey s apiKey ep ra now).2.keys)) ∧
    (∀ (i : Nat) (x y : Credential), s.keys[i]? = some x →
      (validateKey hashKey s apiKey ep ra now).2.keys[i]? = some y →
      x.usageCount ≤ y.usageCount) ∧
    (∀ (k : String) (ts : List Int) (c : Credential),
      WF s → c ∈ s.keys → k ≠ "" → hashKey k = c.keyHash → c.isActive = true →
      (ra = true → c.isAdmin = true) → (∀ t ∈ ts, isExpired c t = false) →
      endpointDenied c ep = false →
      ∃ c' ∈ (validateIter hashKey k ep ra ts s).keys,
        c'.usageCount = c.usageCount + ts.length ∧
        c'.lastUsedAt = ts.getLast?.or c.lastUsedAt) := by
  refine ⟨?_, ?_, ?_, ?_⟩
  · intro e he
    rcases validate_result_cases hashKey s apiKey ep ra now with
      ⟨e0, hcase⟩ | ⟨row0, k0, hksome, hfind0, hcase⟩
    · rw [hcase]
    · rw [hcase] at he
      simp at he
  · intro row hok
    rcases validate_result_cases hashKey s apiKey ep ra now with
      ⟨e0, hcase⟩ | ⟨row0, k0, hksome, hfind0, hcase⟩
    · rw [hcase] at hok
      simp at hok
    · rw [hcase] at hok
      have hrow : row0 = row := by simpa using hok
      subst hrow
      have hmem : row0 ∈ s.keys := List.mem_of_find?_eq_some hfind0
      have hprop := List.find?_some hfind0
      simp only [Bool.and_eq_true, beq_iff_eq] at hprop
      refine ⟨hmem, ?_, rfl, rfl, ?_⟩
      · rw [hcase]
        have hm := List.mem_map_of_mem
          (fun c => if c.keyHash == hashKey k0 then bumpUsage now c else c) hmem
        simpa [updateUsage, hprop.1] using hm
      · intro c hcmem hcne
        rw [hcase]
        have hm := List.mem_map_of_mem
          (fun c => if c.keyHash == hashKey k0 then bumpUsage now c else c) hcmem
        have hcond : (c.keyHash == hashKey k0) = false := by
          rw [← hprop.1]
          simp [hcne]
        simpa [updateUsage, hcond] using hm
  · intro i x y hx hy
    rcases validate_result_cases hashKey s apiKey ep ra now with
      ⟨e0, hcase⟩ | ⟨row0, k0, hksome, hfind0, hcase⟩
    · rw [hcase] at hy
      rw [hx] at hy
      obtain rfl : x = y := Option.some.inj hy
      exact Nat.le_refl _
    · rw [hcase] at hy
      simp only [updateUsage, List.getElem?_map, hx, Option.map_some'] at hy
      obtain rfl := (Option.some.inj hy).symm
      by_cases hxc : (x.keyHash == hashKey k0) = true
      · rw [if_pos hxc]
        show x.usageCount ≤ x.usageCount + 1
        omega
      · rw [if_neg hxc]
  · intro k ts c hwf hc hk hh hact hadm hexpAll hep
    have hkeys := validateIter_keys hashKey k ep ra ts s c hwf hc hk hh hact hadm
      hexpAll hep
    refine ⟨ts.foldl (fun y t => bumpUsage t y) c, ?_, ?_, ?_⟩
    · rw [hkeys]
      have hm := List.mem_map_of_mem
        (fun x => if x.keyHash == c.keyHash then
          ts.foldl (fun y t => bumpUsage t y) x else x) hc
      simpa using hm
    · exact foldl_bump_usageCount ts c
    · exact foldl_bump_lastUsedAt ts c

/-- Witness for C4: two successful validations at times 3 and 7 take the
counter from 5 to 7 and leave `last_used_at = 7`. -/
theorem usage_count_accounting_witness :
    ∃ c' ∈ (validateIter (fun x => x) "h4" "/e" false [3, 7] w4s).keys,
      c'.usageCount = 7 ∧ c'.lastUsedAt = some 7 := by
  obtain ⟨c', hmem, h1, h2⟩ :=
    (usage_count_accounting (fun x => x) w4s (some "h4") "/e" false 0).2.2.2
      "h4" [3, 7] w4c (by simp [WF, w4s]) (by simp [w4s]) (by decide) rfl rfl
      (fun h => by simp at h) (by decide) rfl
  exact ⟨c', hmem, by rw [h1]; rfl, by rw [h2]; rfl⟩

/-! ### C5 -/

/-- Claim C5: a secret returned by a successful `create_key` validates
immediately afterwards — before expiry, against a path its scope allows, with
an admin requirement implied by its admin flag — and the returned metadata
matches the creation arguments (name, description, rate limit, endpoint scope,
admin flag). -/
theorem create_then_validate_roundtrip
    (hashKey : String → String) (s : Store) (randomPart nm desc : String)
    (expDays : Option Int) (rl : Int) (eps : Option (List String)) (adm : Bool)
    (now : Int) (apiKey : String) (s' : Store)
    (hcreate : createKey hashKey s randomPart nm desc expDays rl eps adm now =
      (Except.ok apiKey, s'))
    (p : String) (a : Bool) (now' : Int)
    (hexp : ∀ e, expiresFromDays now expDays = some e → now' ≤ e)
    (hp : encodeEndpoints eps = "*" ∨ p ∈ splitCommas (encodeEndpoints eps))
    (ha : a = true → adm = true) :
    ∃ row, (validateKey hashKey s' (some apiKey) p a now').1 = Except.ok row ∧
      row.name = nm ∧ row.description = desc ∧ row.rateLimit = rl ∧
      row.allowedEndpoints = encodeEndpoints eps ∧ row.isAdmin = adm := by
  have hkey_ne : generateKey randomPart ≠ "" := by
    intro h
    have hlen : (generateKey randomPart).length = 0 := by rw [h]; rfl
    rw [generateKey, String.length_append] at hlen
    have h3 : ("ai_" : String).length = 3 := rfl
    rw [h3] at hlen
    omega
  set row0 : Credential :=
    newCredential hashKey s randomPart nm desc expDays rl eps adm now with hrow0
  by_cases hdup : (s.keys.any (fun k => k.keyHash == row0.keyHash)) = true
  · exfalso
    simp only [createKey, insertKey, ← hrow0, hdup, if_true] at hcreate
    exact absurd (congrArg Prod.fst hcreate) (by simp)
  · have hdup' : (s.keys.any (fun k => k.keyHash == row0.keyHash)) = false := by
      simpa using hdup
    have heq : createKey hashKey s randomPart nm desc expDays rl eps adm now =
        (Except.ok (generateKey randomPart),
         { keys := s.keys ++ [row0], logs := s.logs, nextId := s.nextId + 1 }) := by
      simp only [createKey, insertKey, ← hrow0, hdup', Bool.false_eq_true, if_false]
    rw [heq] at hcreate
    obtain rfl : apiKey = generateKey randomPart :=
      (Except.ok.inj (congrArg Prod.fst hcreate)).symm
    have h2 := congrArg Prod.snd hcreate
    subst h2
    have hblank : isBlankKey (some (generateKey randomPart)) = false := by
      simp [isBlankKey, hkey_ne]
    have hfind : findActive
        { keys := s.keys ++ [row0], logs := s.logs, nextId := s.nextId + 1 }
        (hashKey (generateKey randomPart)) = some row0 := by
      show (s.keys ++ [row0]).find?
        (fun x => x.keyHash == hashKey (generateKey randomPart) && x.isActive)
          = some row0
      rw [List.find?_append]
      have hl : s.keys.find?
          (fun x => x.keyHash == hashKey (generateKey randomPart) && x.isActive)
            = none := by
        rw [List.find?_eq_none]
        intro x hx
        have hnd := List.any_eq_false.mp hdup' x hx
        simp only [hrow0, newCredential] at hnd
        simp only [Bool.and_eq_true, beq_iff_eq, not_and]
        intro hxh
        exact absurd (by simpa using hxh) hnd
      rw [hl, Option.none_or]
      rw [List.find?_cons_of_pos _ (by simp [hrow0, newCredential])]
    have hcond : ¬(a = true ∧ row0.isAdmin = false) := by
      rintro ⟨h1, h2⟩
      have h2' : adm = false := h2
      rw [ha h1] at h2'
      simp at h2'
    have hexpb : isExpired row0 now' = false := by
      show (match expiresFromDays now expDays with
        | some e => decide (now' > e)
        | none => false) = false
      cases he : expiresFromDays now expDays with
      | none => rfl
      | some e =>
        simp only [decide_eq_false_iff_not]
        exact not_lt.mpr (hexp e he)
    have hepb : endpointDenied row0 p = false := by
      show ((encodeEndpoints eps != "*") &&
        !((splitCommas (encodeEndpoints eps)).contains p)) = false
      rcases hp with hs | hmem
      · simp [hs]
      · simp [hmem]
    refine ⟨row0, ?_, rfl, rfl, rfl, rfl, rfl⟩
    simp [validateKey, hblank, hfind, hcond, hexpb, hepb]

/-- Witness for C5: creating a 30-day, `/generate`-scoped, non-admin key in an
empty store and validating the returned secret at time 5 against `/generate`
succeeds with matching metadata. -/
theorem create_then_validate_roundtrip_witness :
    ∃ row, (validateKey (fun x => x) w5s1 (some "ai_r") "/generate" false 5).1 =
        Except.ok row ∧
      row.name = "svc" ∧ row.description = "d" ∧ row.rateLimit = 10 ∧
      row.allowedEndpoints = encodeEndpoints (some ["/generate"]) ∧
      row.isAdmin = false :=
  create_then_validate_roundtrip (fun x => x) w5s0 "r" "svc" "d" (some 30) 10
    (some ["/generate"]) false 0 "ai_r" w5s1 rfl "/generate" false 5
    (fun e he => (Option.some.inj he) ▸ (by decide : (5 : Int) ≤ 0 + 30 * 86400))
    (Or.inr (by decide))
    (fun h => by simp at h)

/-! ### C6 -/

/-- When the looked-up credential is not expired at `now`, `validate_key` can
never produce the expired rejection. -/
lemma validate_not_expired_error (hashKey : String → String) (s : Store)
    (secret ep : String) (ra : Bool) (now : Int) (c : Credential) (hwf : WF s)
    (hc : c ∈ s.keys) (hhash : hashKey secret = c.keyHash)
    (hne : isExpired c now = false) :
    (validateKey hashKey s (some secret) ep ra now).1 ≠
      Except.error ⟨401, "API Key expired"⟩ := by
  intro hcontra
  by_cases hblank : secret = ""
  · simp [validateKey, isBlankKey, hblank] at hcontra
  · cases hfind : findActive s (hashKey secret) with
    | none => simp [validateKey, isBlankKey, hblank, hfind] at hcontra
    | some row =>
      have hrowh : row.keyHash = c.keyHash := by
        have hp := List.find?_some hfind
        simp only [Bool.and_eq_true, beq_iff_eq] at hp
        rw [hp.1, hhash]
      have hrow : row = c :=
        hash_unique_of_wf hwf hc (List.mem_of_find?_eq_some hfind) hrowh
      subst hrow
      by_cases hadmB : (ra && !row.isAdmin) = true
      · simp [validateKey, isBlankKey, hblank, hfind, hadmB] at hcontra
      · have hadmB' : (ra && !row.isAdmin) = false := by simpa using hadmB
        by_cases hep : endpointDenied row ep = true
        · simp [validateKey, isBlankKey, hblank, hfind, hadmB', hne, hep] at hcontra
        · have hep' : endpointDenied row ep = false := by simpa using hep
          simp [validateKey, isBlankKey, hblank, hfind, hadmB', hne, hep'] at hcontra

/-- Counterexample to C6 as stated: at time 100, strictly after the stored
expiry 5, a validate call with `require_admin = true` on this non-admin key is
rejected 403 Forbidden (the admin check runs first), not 401 Unauthenticated. -/
theorem expired_rejected_unauthenticated_cex :
    w6c ∈ w6s.keys ∧ w6c.expiresAt = some 5 ∧ ((5 : Int) < 100) ∧
    (validateKey (fun x => x) w6s (some "h6") "/e" true 100).1 =
      Except.error ⟨403, "Admin privileges required"⟩ :=
  ⟨List.mem_cons_self w6c [], rfl, by decide, rfl⟩

/-- Claim C6 (amended): a credential whose `expires_at` lies strictly in the
past is always rejected — with a 401 unless `require_admin` trips first on a
non-admin key (403); before or at expiry the expiration check passes (the
expired rejection cannot occur), and a credential without `expires_at` never
fails for expiration.  The clock is re-read on every call. -/
theorem expiration_recheck_amended
    (hashKey : String → String) (s : Store) (c : Credential) (secret : String)
    (hwf : WF s) (hc : c ∈ s.keys) (hhash : hashKey secret = c.keyHash)
    (ep : String) (ra : Bool) (now : Int) :
    (∀ e, c.expiresAt = some e → e < now →
      ∃ err, (validateKey hashKey s (some secret) ep ra now).1 =
          Except.error err ∧
        (err.statusCode = 401 ∨
         (ra = true ∧ c.isAdmin = false ∧ c.isActive = true ∧
          err = ⟨403, "Admin privileges required"⟩))) ∧
    (∀ e, c.expiresAt = some e → now ≤ e →
      (validateKey hashKey s (some secret) ep ra now).1 ≠
        Except.error ⟨401, "API Key expired"⟩) ∧
    (c.expiresAt = none →
      (validateKey hashKey s (some secret) ep ra now).1 ≠
        Except.error ⟨401, "API Key expired"⟩) := by
  refine ⟨?_, ?_, ?_⟩
  · intro e he hlt
    by_cases hblank : secret = ""
    · exact ⟨⟨401, "API Key missing"⟩,
        by simp [validateKey, isBlankKey, hblank], Or.inl rfl⟩
    · by_cases hact : c.isActive = true
      · have hfind : findActive s (hashKey secret) = some c := by
          rw [hhash]; exact findActive_eq_some hwf hc hact
        by_cases hadmB : (ra && !c.isAdmin) = true
        · have hra : ra = true ∧ c.isAdmin = false := by simpa using hadmB
          exact ⟨⟨403, "Admin privileges required"⟩,
            by simp [validateKey, isBlankKey, hblank, hfind, hadmB],
            Or.inr ⟨hra.1, hra.2, hact, rfl⟩⟩
        · have hadmB' : (ra && !c.isAdmin) = false := by simpa using hadmB
          have hexp : isExpired c now = true := by
            show (match c.expiresAt with
              | some e => decide (now > e)
              | none => false) = true
            rw [he]
            simp only [decide_eq_true_eq]
            exact hlt
          exact ⟨⟨401, "API Key expired"⟩,
            by simp [validateKey, isBlankKey, hblank, hfind, hadmB', hexp],
            Or.inl rfl⟩
      · have hact' : c.isActive = false := by simpa using hact
        obtain ⟨d, hd⟩ := validate_no_active_match hashKey s secret ep ra now
          (fun k hk hkh => by
            have hkc : k = c := hash_unique_of_wf hwf hc hk (hhash ▸ hkh)
            rw [hkc]; exact hact')
        exact ⟨⟨401, d⟩, hd, Or.inl rfl⟩
  · intro e he hle
    refine validate_not_expired_error hashKey s secret ep ra now c hwf hc hhash ?_
    show (match c.expiresAt with
      | some e => decide (now > e)
      | none => false) = false
    rw [he]
    simp only [decide_eq_false_iff_not]
    exact not_lt.mpr hle
  · intro hnone
    refine validate_not_expired_error hashKey s secret ep ra now c hwf hc hhash ?_
    show (match c.expiresAt with
      | some e => decide (now > e)
      | none => false) = false
    rw [hnone]

/-- Witness for the amended C6: the key expiring at 5 is rejected at time 100
with a 401, and at time 3 the expired rejection cannot occur. -/
theorem expiration_recheck_amended_witness :
    (∃ err, (validateKey (fun x => x) w6s (some "h6") "/e" false 100).1 =
        Except.error err ∧
      (err.statusCode = 401 ∨
       (false = true ∧ w6c.isAdmin = false ∧ w6c.isActive = true ∧
        err = ⟨403, "Admin privileges required"⟩))) ∧
    (validateKey (fun x => x) w6s (some "h6") "/e" false 3).1 ≠
      Except.error ⟨401, "API Key expired"⟩ :=
  ⟨(expiration_recheck_amended (fun x => x) w6s w6c "h6" (by simp [WF, w6s])
      (by simp [w6s]) rfl "/e" false 100).1 5 rfl (by decide),
   (expiration_recheck_amended (fun x => x) w6s w6c "h6" (by simp [WF, w6s])
      (by simp [w6s]) rfl "/e" false 3).2.1 5 rfl (by decide)⟩

/-! ### C8 -/

/-- Claim C8: a credential whose `allowed_endpoints` is the sentinel `*`
(which is what an empty or absent list encodes to) validates against every
path passing the other checks; a restricted credential validates exactly when
the path is one of its comma-separated entries and is otherwise rejected 403. -/
theorem endpoint_scope_enforcement
    (hashKey : String → String) (s : Store) (c : Credential) (secret : String)
    (ep : String) (ra : Bool) (now : Int)
    (hwf : WF s) (hc : c ∈ s.keys) (hhash : hashKey secret = c.keyHash)
    (hk : secret ≠ "") (hact : c.isActive = true)
    (hadm : ra = true → c.isAdmin = true) (hexp : isExpired c now = false) :
    (c.allowedEndpoints = "*" →
      (validateKey hashKey s (some secret) ep ra now).1 = Except.ok c) ∧
    (c.allowedEndpoints ≠ "*" →
      (ep ∈ splitCommas c.allowedEndpoints →
        (validateKey hashKey s (some secret) ep ra now).1 = Except.ok c) ∧
      (ep ∉ splitCommas c.allowedEndpoints →
        (validateKey hashKey s (some secret) ep ra now).1 =
          Except.error ⟨403, "API Key not authorized for endpoint: " ++ ep⟩)) ∧
    (encodeEndpoints none = "*" ∧ encodeEndpoints (some []) = "*") := by
  refine ⟨?_, ?_, rfl, rfl⟩
  · intro hstar
    have hep : endpointDenied c ep = false := by
      unfold endpointDenied
      simp [hstar]
    have h := validate_success_eq hashKey s secret ep ra now c hwf hc hk hhash
      hact hadm hexp hep
    rw [h]
  · intro hnstar
    constructor
    · intro hmem
      have hep : endpointDenied c ep = false := by
        unfold endpointDenied
        simp [hmem]
      have h := validate_success_eq hashKey s secret ep ra now c hwf hc hk hhash
        hact hadm hexp hep
      rw [h]
    · intro hnmem
      have hep : endpointDenied c ep = true := by
        unfold endpointDenied
        simp [hnstar, hnmem]
      have hfind : findActive s (hashKey secret) = some c := by
        rw [hhash]; exact findActive_eq_some hwf hc hact
      have hadmB : (ra && !c.isAdmin) = false := by
        cases ra
        · rfl
        · simp [hadm rfl]
      simp [validateKey, isBlankKey, hk, hfind, hadmB, hexp, hep]

/-- Witness for C8: the `/embeddings`-scoped key succeeds against
`/embeddings` and is rejected 403 against `/transcribe`. -/
theorem endpoint_scope_enforcement_witness :
    (validateKey (fun x => x) w8s (some "h8") "/embeddings" false 0).1 =
      Except.ok w8c ∧
    (validateKey (fun x => x) w8s (some "h8") "/transcribe" false 0).1 =
      Except.error ⟨403, "API Key not authorized for endpoint: /transcribe"⟩ :=
  ⟨((endpoint_scope_enforcement (fun x => x) w8s w8c "h8" "/embeddings" false 0
      (by simp [WF, w8s]) (by simp [w8s]) rfl (by decide) rfl
      (fun h => by simp at h) rfl).2.1 (by decide)).1 (by decide),
   ((endpoint_scope_enforcement (fun x => x) w8s w8c "h8" "/transcribe" false 0
      (by simp [WF, w8s]) (by simp [w8s]) rfl (by decide) rfl
      (fun h => by simp at h) rfl).2.1 (by decide)).2 (by decide)⟩

/-! ### C7 -/

/-- Claim C7: inserting a credential whose hash is already stored surfaces
`ConflictError` (the UNIQUE constraint) and leaves the store exactly as it
was — no crash, no silent overwrite; in particular when the secrets of two
`create_key` calls collide in hash, the second call surfaces the conflict. -/
theorem duplicate_hash_insert_conflict
    (hashKey : String → String) (s : Store) (randomPart nm desc : String)
    (expDays : Option Int) (rl : Int) (eps : Option (List String)) (adm : Bool)
    (now : Int) :
    ((∃ c ∈ s.keys, c.keyHash = hashKey (generateKey randomPart)) →
      createKey hashKey s randomPart nm desc expDays rl eps adm now =
        (Except.error ConflictError.conflict, s)) ∧
    (∀ (r2 nm2 desc2 : String) (e2 : Option Int) (rl2 : Int)
        (eps2 : Option (List String)) (adm2 : Bool) (now2 : Int)
        (apiKey : String) (s' : Store),
      createKey hashKey s randomPart nm desc expDays rl eps adm now =
        (Except.ok apiKey, s') →
      hashKey (generateKey r2) = hashKey (generateKey randomPart) →
      createKey hashKey s' r2 nm2 desc2 e2 rl2 eps2 adm2 now2 =
        (Except.error ConflictError.conflict, s')) := by
  constructor
  · rintro ⟨c, hc, hch⟩
    have hany : (s.keys.any (fun k => k.keyHash ==
        (newCredential hashKey s randomPart nm desc expDays rl eps adm
          now).keyHash)) = true := by
      refine List.any_eq_true.mpr ⟨c, hc, ?_⟩
      show (c.keyHash == hashKey (generateKey randomPart)) = true
      simp [hch]
    simp only [createKey, insertKey, hany, if_true]
  · intro r2 nm2 desc2 e2 rl2 eps2 adm2 now2 apiKey s' hcreate hcol
    set row0 : Credential :=
      newCredential hashKey s randomPart nm desc expDays rl eps adm now with hrow0
    by_cases hdup : (s.keys.any (fun k => k.keyHash == row0.keyHash)) = true
    · exfalso
      simp only [createKey, insertKey, ← hrow0, hdup, if_true] at hcreate
      exact absurd (congrArg Prod.fst hcreate) (by simp)
    · have hdup' : (s.keys.any (fun k => k.keyHash == row0.keyHash)) = false := by
        simpa using hdup
      have heq : createKey hashKey s randomPart nm desc expDays rl eps adm now =
          (Except.ok (generateKey randomPart),
           { keys := s.keys ++ [row0], logs := s.logs, nextId := s.nextId + 1 }) := by
        simp only [createKey, insertKey, ← hrow0, hdup', Bool.false_eq_true, if_false]
      rw [heq] at hcreate
      have h2 := congrArg Prod.snd hcreate
      subst h2
      have hmem : row0 ∈
          ({ keys := s.keys ++ [row0], logs := s.logs,
             nextId := s.nextId + 1 } : Store).keys :=
        List.mem_append.mpr (Or.inr (List.mem_cons_self row0 []))
      have hany2 : ((s.keys ++ [row0]).any (fun k => k.keyHash ==
          (newCredential hashKey
            { keys := s.keys ++ [row0], logs := s.logs, nextId := s.nextId + 1 }
            r2 nm2 desc2 e2 rl2 eps2 adm2 now2).keyHash)) = true := by
        refine List.any_eq_true.mpr ⟨row0, hmem, ?_⟩
        show (row0.keyHash == hashKey (generateKey r2)) = true
        have hr : row0.keyHash = hashKey (generateKey randomPart) := rfl
        rw [hr, hcol]
        simp
      simp only [createKey, insertKey, hany2, if_true]

/-- Witness for C7: with a hash function forcing a collision, the first
creation succeeds and the second surfaces `ConflictError`, store unchanged. -/
theorem duplicate_hash_insert_conflict_witness :
    createKey (fun _ => "H") w7s1 "r2" "n2" "" none 60 none false 0 =
      (Except.error ConflictError.conflict, w7s1) :=
  (duplicate_hash_insert_conflict (fun _ => "H") w7s0 "r1" "n1" "" none 60 none
    false 0).2 "r2" "n2" "" none 60 none false 0 "ai_r1" w7s1 rfl rfl

/-! ### C3 -/

/-- Counterexample to C3 as stated: a successful `validate_key` returns the
row exactly as fetched by `SELECT *`, so the returned metadata carries the
stored `key_hash` — here equal to the digest of the presented secret. -/
theorem validate_exposes_hash_cex :
    (validateKey (fun x => x) w3s (some "sek") "/e" false 0).1 = Except.ok w3c ∧
    w3c.keyHash = (fun x : String => x) "sek" :=
  ⟨rfl, rfl⟩

/-- Claim C3 (amended): the projections of `list_keys` and `get_key_stats` are
independent of the `key_hash` column (rewriting every stored hash leaves them
unchanged), but the value returned by a successful `validate_key` does include
the hash — it equals the digest of the presented secret. -/
theorem hash_exposure_amended
    (hashKey f : String → String) (s : Store) (ao : Bool) (q : Option String)
    (apiKey ep : String) (ra : Bool) (now : Int) :
    listKeys (scrubHashes s f) ao = listKeys s ao ∧
    getKeyStats (scrubHashes s f) q = getKeyStats s q ∧
    (∀ row, (validateKey hashKey s (some apiKey) ep ra now).1 = Except.ok row →
      row.keyHash = hashKey apiKey) := by
  refine ⟨?_, ?_, ?_⟩
  · unfold listKeys scrubHashes
    congr 1
    cases ao with
    | false =>
      simp only [if_false, Bool.false_eq_true]
      rw [List.map_map]
      exact List.map_congr_left (fun a _ => rfl)
    | true =>
      simp only [if_true]
      rw [List.filter_map, List.map_map]
      have hf : ((fun c : Credential => c.isActive) ∘
          (fun c : Credential => { c with keyHash := f c.keyHash })) =
            (fun c : Credential => c.isActive) := funext fun c => rfl
      rw [hf]
      exact List.map_congr_left (fun a _ => rfl)
  · unfold getKeyStats scrubHashes
    cases q with
    | none =>
      simp [List.filter_map, List.map_map, Function.comp]
      have h1 : ((fun c : Credential => c.isActive) ∘
          (fun c : Credential => { c with keyHash := f c.keyHash })) =
            (fun c : Credential => c.isActive) := funext fun c => rfl
      have h2 : ((fun c : Credential => c.isAdmin) ∘
          (fun c : Credential => { c with keyHash := f c.keyHash })) =
            (fun c : Credential => c.isAdmin) := funext fun c => rfl
      have h3 : ((fun c : Credential => c.usageCount) ∘
          (fun c : Credential => { c with keyHash := f c.keyHash })) =
            (fun c : Credential => c.usageCount) := funext fun c => rfl
      have h4 : ((fun c : Credential => c.keyPfx) ∘
          (fun c : Credential => { c with keyHash := f c.keyHash })) =
            (fun c : Credential => c.keyPfx) := funext fun c => rfl
      rw [h1, h2, h3, h4]
      exact ⟨rfl, rfl, rfl, rfl⟩
    | some p =>
      have hfind : (s.keys.map
            (fun c => { c with keyHash := f c.keyHash })).find?
              (fun c => c.keyPfx == p) =
          (s.keys.find? (fun c => c.keyPfx == p)).map
            (fun c => { c with keyHash := f c.keyHash }) := by
        rw [List.find?_map]
        congr 1
      cases hr : s.keys.find? (fun c => c.keyPfx == p) with
      | none => simp [hfind, hr]
      | some c0 => simp [hfind, hr]
  · intro row hok
    rcases validate_result_cases hashKey s (some apiKey) ep ra now with
      ⟨e0, hcase⟩ | ⟨row0, k0, hks, hfind0, hcase⟩
    · rw [hcase] at hok
      simp at hok
    · rw [hcase] at hok
      obtain rfl : row0 = row := by simpa using hok
      obtain rfl : k0 = apiKey := (Option.some.inj hks).symm
      have hp := List.find?_some hfind0
      simp only [Bool.and_eq_true, beq_iff_eq] at hp
      exact hp.1

/-- Witness for the amended C3: scrubbing hashes leaves `list_keys` unchanged
on a concrete store, while the row returned by a successful validation carries
the digest of the presented secret. -/
theorem hash_exposure_amended_witness :
    listKeys (scrubHashes w3s (fun _ => "X")) false = listKeys w3s false ∧
    w3c.keyHash = (fun x : String => x) "sek" :=
  ⟨(hash_exposure_amended (fun x => x) (fun _ => "X") w3s false none "sek" "/e"
      false 0).1,
   (hash_exposure_amended (fun x => x) (fun _ => "X") w3s false none "sek" "/e"
      false 0).2.2 w3c rfl⟩

/-! ### C9 -/

/-- `validate_key` never touches the log table. -/
lemma validate_logs_invariant (hashKey : String → String) (s : Store)
    (apiKey : Option String) (ep : String) (ra : Bool) (now : Int) :
    (validateKey hashKey s apiKey ep ra now).2.logs = s.logs := by
  rcases validate_result_cases hashKey s apiKey ep ra now with
    ⟨e, hc⟩ | ⟨row, k, _, _, hc⟩
  · rw [hc]
  · rw [hc]
    rfl

/-- Counterexample to C9 as stated: the boundary logs the constant status code
200 during verification, before the handler runs; when the handler resolves
status 500, the single audit entry still says 200. -/
theorem audit_resolved_status_cex :
    (handleRequest (fun x => x) w9s (some "h9") "/e" "GET" "ip" 0 false 500).1 =
      Except.ok 500 ∧
    (handleRequest (fun x => x) w9s (some "h9") "/e" "GET" "ip" 0 false 500).2.logs =
      [⟨w9c.keyPfx, "/e", "GET", 200, "ip", 0⟩] :=
  ⟨rfl, rfl⟩

/-- Claim C9 (amended): for every request whose validation succeeds at the
boundary, exactly one audit entry is appended — recorded during verification,
before the handler's own logic, with the constant status code 200 rather than
the resolved one — and a failure of the audit append is caught so the request's
outcome is unchanged; a rejected validation appends nothing and propagates the
validation error with the store untouched. -/
theorem audit_exactly_once_amended
    (hashKey : String → String) (s : Store) (apiKey : Option String)
    (path method ip : String) (now : Int) (handlerStatus : Nat) :
    (∀ row, (validateKey hashKey s apiKey path false now).1 = Except.ok row →
      (∀ logFails, (handleRequest hashKey s apiKey path method ip now logFails
        handlerStatus).1 = Except.ok handlerStatus) ∧
      (handleRequest hashKey s apiKey path method ip now false
        handlerStatus).2.logs =
          s.logs ++ [⟨row.keyPfx, path, method, 200, ip, now⟩] ∧
      (handleRequest hashKey s apiKey path method ip now true
        handlerStatus).2.logs = s.logs) ∧
    (∀ e, (validateKey hashKey s apiKey path false now).1 = Except.error e →
      ∀ logFails, handleRequest hashKey s apiKey path method ip now logFails
        handlerStatus = (Except.error e, s)) := by
  constructor
  · intro row hok
    have hlogs := validate_logs_invariant hashKey s apiKey path false now
    rcases hv : validateKey hashKey s apiKey path false now with ⟨r, s2⟩
    rw [hv] at hok hlogs
    obtain rfl : r = Except.ok row := hok
    refine ⟨?_, ?_, ?_⟩
    · intro logFails
      cases logFails with
      | false => simp [handleRequest, verifyApiKey, hv]
      | true => simp [handleRequest, verifyApiKey, hv]
    · simp [handleRequest, verifyApiKey, hv, logRequest]
      exact hlogs
    · simp [handleRequest, verifyApiKey, hv]
      exact hlogs
  · intro e herr logFails
    rcases validate_result_cases hashKey s apiKey path false now with
      ⟨e0, hcase⟩ | ⟨row0, k0, hks, hfind0, hcase⟩
    · have he0 : e0 = e := by
        have := congrArg Prod.fst hcase
        rw [herr] at this
        exact (Except.error.inj this).symm
      subst he0
      simp [handleRequest, verifyApiKey, hcase]
    · rw [hcase] at herr
      simp at herr

/-- Witness for the amended C9: on a concrete store the successful request
appends exactly one entry with status 200, and with a failing audit append the
request still resolves while the log stays empty. -/
theorem audit_exactly_once_amended_witness :
    (handleRequest (fun x => x) w9s (some "h9") "/e" "GET" "ip" 0 true 204).1 =
      Except.ok 204 ∧
    (handleRequest (fun x => x) w9s (some "h9") "/e" "GET" "ip" 0 false
      204).2.logs = w9s.logs ++ [⟨w9c.keyPfx, "/e", "GET", 200, "ip", 0⟩] ∧
    (handleRequest (fun x => x) w9s (some "h9") "/e" "GET" "ip" 0 true
      204).2.logs = w9s.logs :=
  ⟨((audit_exactly_once_amended (fun x => x) w9s (some "h9") "/e" "GET" "ip" 0
      204).1 w9c rfl).1 true,
   ((audit_exactly_once_amended (fun x => x) w9s (some "h9") "/e" "GET" "ip" 0
      204).1 w9c rfl).2.1,
   ((audit_exactly_once_amended (fun x => x) w9s (some "h9") "/e" "GET" "ip" 0
      204).1 w9c rfl).2.2⟩

/-! ### C10 -/

/-- Claim C10: `revoke_key p` (resp. `activate_key p`) sets `is_active` to
false (resp. true) on every stored credential whose `key_prefix` equals `p`,
changes nothing else (no other field, no other row, no log rows, no id
counter), and returns true exactly when at least one row matched. -/
theorem revoke_activate_set_all_matching_rows (s : Store) (p : String) :
    ((revokeKey s p).1 = true ↔ ∃ c ∈ s.keys, c.keyPfx = p) ∧
    ((activateKey s p).1 = true ↔ ∃ c ∈ s.keys, c.keyPfx = p) ∧
    (∀ c ∈ s.keys,
      (c.keyPfx = p →
        ({ c with isActive := false } : Credential) ∈ (revokeKey s p).2.keys ∧
        ({ c with isActive := true } : Credential) ∈ (activateKey s p).2.keys) ∧
      (c.keyPfx ≠ p →
        c ∈ (revokeKey s p).2.keys ∧ c ∈ (activateKey s p).2.keys)) ∧
    (∀ c' ∈ (revokeKey s p).2.keys, ∃ c ∈ s.keys,
      (c.keyPfx = p ∧ c' = { c with isActive := false }) ∨
      (c.keyPfx ≠ p ∧ c' = c)) ∧
    (∀ c' ∈ (activateKey s p).2.keys, ∃ c ∈ s.keys,
      (c.keyPfx = p ∧ c' = { c with isActive := true }) ∨
      (c.keyPfx ≠ p ∧ c' = c)) ∧
    ((revokeKey s p).2.logs = s.logs ∧ (revokeKey s p).2.nextId = s.nextId) ∧
    ((activateKey s p).2.logs = s.logs ∧ (activateKey s p).2.nextId = s.nextId) := by
  refine ⟨?_, ?_, ?_, ?_, ?_, ⟨rfl, rfl⟩, ⟨rfl, rfl⟩⟩
  · simp [revokeKey]
  · simp [activateKey]
  · intro c hc
    constructor
    · intro hp
      exact ⟨List.mem_map.mpr ⟨c, hc, by simp [hp]⟩,
             List.mem_map.mpr ⟨c, hc, by simp [hp]⟩⟩
    · intro hp
      exact ⟨List.mem_map.mpr ⟨c, hc, by simp [hp]⟩,
             List.mem_map.mpr ⟨c, hc, by simp [hp]⟩⟩
  · intro c' hc'
    rcases List.mem_map.mp hc' with ⟨c, hc, rfl⟩
    refine ⟨c, hc, ?_⟩
    by_cases hp : c.keyPfx = p
    · exact Or.inl ⟨hp, by simp [hp]⟩
    · exact Or.inr ⟨hp, by simp [hp]⟩
  · intro c' hc'
    rcases List.mem_map.mp hc' with ⟨c, hc, rfl⟩
    refine ⟨c, hc, ?_⟩
    by_cases hp : c.keyPfx = p
    · exact Or.inl ⟨hp, by simp [hp]⟩
    · exact Or.inr ⟨hp, by simp [hp]⟩

/-- Witness for C10: with two rows sharing prefix `pp`, revocation reports
success and deactivates both rows. -/
theorem revoke_activate_set_all_matching_rows_witness :
    (revokeKey w10s "pp").1 = true ∧
    ({ w10a with isActive := false } : Credential) ∈ (revokeKey w10s "pp").2.keys ∧
    ({ w10b with isActive := false } : Credential) ∈ (revokeKey w10s "pp").2.keys :=
  ⟨(revoke_activate_set_all_matching_rows w10s "pp").1.mpr ⟨w10a, by simp [w10s], rfl⟩,
   (((revoke_activate_set_all_matching_rows w10s "pp").2.2.1 w10a (by simp [w10s])).1 rfl).1,
   (((revoke_activate_set_all_matching_rows w10s "pp").2.2.1 w10b (by simp [w10s])).1 rfl).1⟩

end ApiKeys
